import Mathlib

/-!
Verification development for the GIF (generalized integrate-and-fire) neuron
model of `src/GIF.py`.  The numeric loops of the source (plain Python plus the
two inline C kernels executed through `weave.inline`) are embedded as
executable Lean functions over `ℚ`; exact rational arithmetic stands in for
the float arithmetic of the source.  Fallible array accesses (out-of-bounds
reads and writes, which raise `IndexError` in numpy or are undefined behavior
in C) are modelled by `Option`-returning functions: `none` means the source
would not return normally.  The two external library functions used inside
the loops, `exp` and the uniform random draw `rand()/RAND_MAX`, are passed in
as explicit parameters (`Eexp : ℚ → ℚ` and `rand : ℕ → ℚ`), so every
definition stays executable.
-/

attribute [local semireducible] Rat.add Rat.mul Rat.sub Rat.inv

namespace GIFModel

/-- Truncating integer conversion, toward zero, as performed by the C and
Python `int(...)` casts of the source (`int(p_Tref/dt)` and friends). -/
def pyInt (q : ℚ) : ℤ := q.num / (q.den : ℤ)

/-- Modelled from the spec: `Tools.timeToIndex` (the `Tools` module is not
among the source files at hand; only its call sites are) converts spike times
in ms to sample indices by round-to-nearest against `dt`. -/
def timeToIndex (ts : List ℚ) (dt : ℚ) : List ℤ :=
  ts.map (fun s => round (s / dt))

/-- Elementwise in-place addition of the kernel `k` into the accumulator `a`
starting at offset `s`, mirroring the C loops
`for(j=0; j<eta_l; j++) eta_sum[t+1+j] += p_eta[j]`. -/
def addAt : List ℚ → ℕ → List ℚ → List ℚ
  | a, _, [] => a
  | [], _, _ => []
  | x :: a, 0, k0 :: k => (x + k0) :: addAt a 0 k
  | x :: a, s + 1, k => x :: addAt a s k

/-- Bounds-checked kernel superposition: the C loop writes `a[s+j]` for
`j < k.length`; a write past the end of the allocated array is out of bounds
(`none`).  An empty kernel performs no write at all. -/
def addKernel (a : List ℚ) (s : ℕ) (k : List ℚ) : Option (List ℚ) :=
  if k.length = 0 then some a
  else if s + k.length ≤ a.length then some (addAt a s k) else none

/-- Scalar model parameters of the GIF model, as read at the top of
`simulate` and `simulateDeterministic_forceSpikes`. -/
structure SimParams where
  dt : ℚ
  gl : ℚ
  C : ℚ
  El : ℚ
  Vr : ℚ
  Tref : ℚ
  Vt_star : ℚ
  DV : ℚ
  lambda0 : ℚ

/-- Refractory sample count `Tref_ind = int(p_Tref/dt)` computed inside the C
kernels (truncation, not rounding; clamped at zero for the embedding, which
only concerns nonnegative `Tref` and positive `dt`). -/
def SimParams.TrefInd (p : SimParams) : ℕ := (pyInt (p.Tref / p.dt)).toNat

/-- Return value of the stochastic simulator `simulate`. -/
structure SimResult where
  time : List ℚ
  V : List ℚ
  eta_sum : List ℚ
  V_T : List ℚ
  spks : List ℚ
deriving DecidableEq

/-- The C loop of `GIF.simulate` (stochastic mode).  State: loop index `t`,
random-draw counter `k`, and the four arrays.  `fuel` bounds the recursion;
the loop index advances by at least one sample per iteration, so fuel `T`
always suffices to reach the exit condition `t >= T-1`. -/
def simLoop (Eexp : ℚ → ℚ) (rand : ℕ → ℚ) (p : SimParams) (p_eta p_gamma I : List ℚ)
    (T : ℕ) :
    ℕ → ℕ → ℕ → List ℚ → List ℚ → List ℚ → List ℚ →
    Option (List ℚ × List ℚ × List ℚ × List ℚ)
  | 0, t, _, V, spks, eta_sum, gamma_sum =>
    if T ≤ t + 1 then some (V, spks, eta_sum, gamma_sum) else none
  | fuel + 1, t, k, V, spks, eta_sum, gamma_sum =>
    if T ≤ t + 1 then some (V, spks, eta_sum, gamma_sum)
    else
      -- V[t+1] = V[t] + dt/C*( -gl*(V[t] - El) + I[t] - eta_sum[t] )
      let Vt1 := V.getD t 0 +
        p.dt / p.C * (-(p.gl * (V.getD t 0 - p.El)) + I.getD t 0 - eta_sum.getD t 0)
      let V1 := V.set (t + 1) Vt1
      -- lambda = lambda0*exp((V[t+1]-Vt_star-gamma_sum[t])/DV)
      let lam := p.lambda0 * Eexp ((Vt1 - p.Vt_star - gamma_sum.getD t 0) / p.DV)
      -- p_dontspike = exp(-lambda*(dt/1000))
      let pd := Eexp (-(lam * (p.dt / 1000)))
      if pd < rand k then
        let spks1 := if t + 1 + 1 < T then spks.set (t + 1) 1 else spks
        let t1 := t + p.TrefInd
        let V2 := if t1 + 1 + 1 < T then V1.set (t1 + 1) p.Vr else V1
        match addKernel eta_sum (t1 + 1) p_eta with
        | none => none
        | some es1 =>
          match addKernel gamma_sum (t1 + 1) p_gamma with
          | none => none
          | some gs1 =>
            simLoop Eexp rand p p_eta p_gamma I T fuel (t1 + 1) (k + 1) V2 spks1 es1 gs1
      else
        simLoop Eexp rand p p_eta p_gamma I T fuel (t + 1) (k + 1) V1 spks eta_sum gamma_sum

/-- `GIF.simulate`: stochastic simulation of the model response to the input
current `I` with initial condition `V0`.  The accumulation arrays carry
`2*kernel_length` trailing padding, exactly as allocated in the source; the
assignment `V[0] = V0` on an empty array raises (`none`). -/
def simulate (Eexp : ℚ → ℚ) (rand : ℕ → ℚ) (p : SimParams) (p_eta p_gamma : List ℚ)
    (I : List ℚ) (V0 : ℚ) : Option SimResult :=
  let T := I.length
  if T = 0 then none
  else
    let V := (List.replicate T (0 : ℚ)).set 0 V0
    let spks := List.replicate T (0 : ℚ)
    let eta_sum := List.replicate (T + 2 * p_eta.length) (0 : ℚ)
    let gamma_sum := List.replicate (T + 2 * p_gamma.length) (0 : ℚ)
    match simLoop Eexp rand p p_eta p_gamma I T T 0 0 V spks eta_sum gamma_sum with
    | none => none
    | some (Vf, spksf, esf, gsf) =>
      some { time := (List.range T).map (fun i => (i : ℚ) * p.dt)
             V := Vf
             eta_sum := esf.take T
             V_T := (gsf.take T).map (fun x => x + p.Vt_star)
             spks := ((List.range T).filter (fun i => spksf.getD i 0 == 1)).map
               (fun i => (i : ℚ) * p.dt) }

/-- Python-side precomputation of the forced adaptation current in
`simulateDeterministic_forceSpikes`: for each spike index `s` the slice
assignment `eta_sum[s+1+Tref_i : s+1+Tref_i+eta_l] += p_eta` is performed.
A clipped slice shorter than the kernel raises a broadcast error, and a
negative slice start (wrap-around indexing) is likewise treated as an error
(`none`); both never occur for in-window spike indices. -/
def etaSumLoop (Tref_i : ℕ) (p_eta : List ℚ) : List ℤ → List ℚ → Option (List ℚ)
  | [], a => some a
  | s :: rest, a =>
    let start : ℤ := s + 1 + (Tref_i : ℤ)
    if 0 ≤ start then
      match addKernel a start.toNat p_eta with
      | none => none
      | some a1 => etaSumLoop Tref_i p_eta rest a1
    else none

/-- Forced adaptation current of the deterministic simulator: the accumulator
is allocated as `zeros(p_T + 1.1*p_eta_l + p_Tref_i)` (the float size argument
truncates), the kernel is superposed at each refractory-offset spike index,
and the result is truncated to the trace length. -/
def etaSumForced (T Tref_i : ℕ) (p_eta : List ℚ) (spks_i : List ℤ) : Option (List ℚ) :=
  (etaSumLoop Tref_i p_eta spks_i
      (List.replicate (T + Tref_i + 11 * p_eta.length / 10) 0)).map (fun a => a.take T)

/-- The C loop of `GIF.simulateDeterministic_forceSpikes`.  `readSpk k` models
the read `spks_i[k]`; the total embedding returns `none` past the end of the
array, while the UB embedding supplies the (garbage) value such a C read
yields.  On a forced spike the loop sets `V[t-1] = 0` and `V[t] = Vr` and
rewinds the loop index by one (`t = t-1` followed by the `t++` of the `for`),
so the body runs again at the same `t`; a forced spike at `t = 0` would write
`V[-1]`, which is out of bounds (`none`).  Each non-spike iteration advances
`t`, and each forced spike consumes one extra iteration, so the fuel needed
is `T` plus the number of forced-spike events. -/
def detLoop (T : ℕ) (readSpk : ℕ → Option ℤ) (Tref_ind : ℤ) (dt C gl El Vr : ℚ)
    (I es : List ℚ) :
    ℕ → ℕ → ℤ → ℕ → List ℚ → Option (List ℚ)
  | 0, t, _, _, V => if T ≤ t + 1 then some V else none
  | fuel + 1, t, next, cnt, V =>
    if T ≤ t + 1 then some V
    else
      -- V[t+1] = V[t] + dt/C*( -gl*(V[t] - El) + I[t] - eta_sum[t] )
      let V1 := V.set (t + 1)
        (V.getD t 0 + dt / C * (-(gl * (V.getD t 0 - El)) + I.getD t 0 - es.getD t 0))
      if (t : ℤ) = next then
        match readSpk (cnt + 1), t with
        | none, _ => none
        | some _, 0 => none
        | some s, t0 + 1 =>
          detLoop T readSpk Tref_ind dt C gl El Vr I es fuel (t0 + 1) (s + Tref_ind)
            (cnt + 1) ((V1.set t0 0).set (t0 + 1) Vr)
      else
        detLoop T readSpk Tref_ind dt C gl El Vr I es fuel (t + 1) next cnt V1

/-- Return value of the deterministic (forced-spike) simulator. -/
structure DetResult where
  time : List ℚ
  V : List ℚ
  eta_sum : List ℚ
deriving DecidableEq

/-- Body of `GIF.simulateDeterministic_forceSpikes`, shared by the total and
the UB embedding: Python precomputation of `eta_sum`, initial condition
`V[0] = V0` (an out-of-bounds write when the trace is empty), the initial
read `next_spike = spks_i[0] + Tref_ind`, and the C loop. -/
def simulateDetCore (readSpk : ℕ → Option ℤ) (p : SimParams) (p_eta : List ℚ)
    (I : List ℚ) (V0 : ℚ) (spks_i : List ℤ) : Option DetResult :=
  let T := I.length
  let Tref_i : ℤ := pyInt (p.Tref / p.dt)
  match etaSumForced T Tref_i.toNat p_eta spks_i with
  | none => none
  | some es =>
    if T = 0 then none
    else
      match readSpk 0 with
      | none => none
      | some s0 =>
        match detLoop T readSpk Tref_i p.dt p.C p.gl p.El p.Vr I es (2 * T + 2) 0
            (s0 + Tref_i) 0 ((List.replicate T (0 : ℚ)).set 0 V0) with
        | none => none
        | some Vf =>
          some { time := (List.range T).map (fun i => (i : ℚ) * p.dt)
                 V := Vf
                 eta_sum := es }

/-- `GIF.simulateDeterministic_forceSpikes`, total embedding: every read of
`spks_i` past the end of the array is out of bounds (`none`). -/
def simulateDeterministic_forceSpikes (p : SimParams) (p_eta : List ℚ) (I : List ℚ)
    (V0 : ℚ) (spks : List ℚ) : Option DetResult :=
  let spks_i := timeToIndex spks p.dt
  simulateDetCore (fun k => spks_i.get? k) p p_eta I V0 spks_i

/-- `GIF.simulateDeterministic_forceSpikes`, UB embedding: a read of `spks_i`
past the end of the array is undefined behavior in C; the value such a read
yields is supplied by the explicit parameter `junk`. -/
def simulateDeterministic_forceSpikesUB (junk : ℕ → ℤ) (p : SimParams) (p_eta : List ℚ)
    (I : List ℚ) (V0 : ℚ) (spks : List ℚ) : Option DetResult :=
  let spks_i := timeToIndex spks p.dt
  simulateDetCore (fun k => some (spks_i.getD k (junk k))) p p_eta I V0 spks_i

/-! Fitting pipeline, stage 1: `GIF.fitVoltageReset`. -/

/-- Modelled from the spec: a training trace as seen by `fitVoltageReset`.
The `Trace` collaborator (not among the source files at hand) exposes a
use-flag, the spike-time list, and `computeAverageSpikeShape`, which returns
the time support of the spike-triggered average voltage waveform, the
waveform itself, and the number of spikes it was computed on. -/
structure TraceData where
  useTrace : Bool
  spks : List ℚ
  support : List ℚ
  spikeAvg : List ℚ
  spikeNb : ℕ
deriving DecidableEq

/-- The traces that contribute to the voltage-reset fit: those with
`tr.useTrace` and `len(tr.spks) > 0`. -/
def qualifyingTraces (traces : List TraceData) : List TraceData :=
  traces.filter (fun tr => tr.useTrace && decide (0 < tr.spks.length))

/-- Elementwise `np.mean(•, axis=0)` over a list of equal-length vectors:
each vector contributes with equal weight.  The mean of an empty list is NaN
(`none`), and ragged input is an error. -/
def vecMeanQ (ls : List (List ℚ)) : Option (List ℚ) :=
  match ls with
  | [] => none
  | l0 :: rest =>
    if rest.all (fun l => l.length == l0.length) then
      some ((List.range l0.length).map
        (fun j => (ls.map (fun l => l.getD j 0)).sum / (ls.length : ℚ)))
    else none

/-- `GIF.fitVoltageReset`: average the per-trace spike-triggered voltage
waveforms of all qualifying traces with equal weight, set `Vr` to the value
of the averaged waveform at the first support sample `>= Tref`
(`np.where(support >= Tref)[0][0]`, an IndexError when no such sample
exists), and store the averaged waveform together with the support that the
loop variable holds after the loop, i.e. the last qualifying trace's support.
The result is `(Vr, avg_spike_shape, avg_spike_shape_support)`. -/
def fitVoltageReset (traces : List TraceData) (Tref : ℚ) : Option (ℚ × List ℚ × List ℚ) :=
  let qual := qualifyingTraces traces
  match vecMeanQ (qual.map (fun tr => tr.spikeAvg)), qual.getLast? with
  | some spike_average, some lastTr =>
    match lastTr.support.findIdx? (fun x => decide (Tref ≤ x)) with
    | some Tref_ind =>
      match spike_average.get? Tref_ind with
      | some v => some (v, spike_average, lastTr.support)
      | none => none
    | none => none
  | _, _ => none

/-! Fitting pipeline, stage 2: sub-threshold regression target and parameter
extraction (`GIF.fitSubthresholdDynamics_Build_Xmatrix_Yvector` and
`GIF.fitSubthresholdDynamics`). -/

/-- `np.diff`: adjacent differences. -/
def npDiff : List ℚ → List ℚ
  | [] => []
  | [_] => []
  | x :: y :: l => (y - x) :: npDiff (y :: l)

/-- The full regression target before row selection:
`np.concatenate((np.diff(trace.V)/trace.dt, [0]))`. -/
def buildYfull (V : List ℚ) (dt : ℚ) : List ℚ :=
  (npDiff V).map (fun x => x / dt) ++ [0]

/-- The regression target `Y` of
`fitSubthresholdDynamics_Build_Xmatrix_Yvector`: the full target restricted
to the selected sample indices (numpy fancy indexing; the selection indices
produced by the `Trace` collaborator lie inside the trace). -/
def buildYvector (V : List ℚ) (dt : ℚ) (selection : List ℕ) : List ℚ :=
  selection.map (fun i => (buildYfull V dt).getD i 0)

/-- Parameter extraction of `fitSubthresholdDynamics` from the regression
coefficients `b`: `C = 1/b[1]`, `gl = -b[0]*C`, `El = b[2]*C/gl`, and the
eta coefficients `-b[3:]*C`. -/
def extractSubthresholdParams (b : List ℚ) : ℚ × ℚ × ℚ × List ℚ :=
  let C := 1 / b.getD 1 0
  let gl := -(b.getD 0 0) * C
  let El := b.getD 2 0 * C / gl
  (C, gl, El, (b.drop 3).map (fun x => -x * C))

/-! Likelihood optimizer: `GIF.maximizeLikelihood` and
`GIF.computeLikelihoodGradientHessian`. -/

/-- Dot product of two vectors (`np.dot` on 1-d arrays). -/
def dotQ (a b : List ℚ) : ℚ := (List.zipWith (fun x y => x * y) a b).sum

/-- Transpose of a rectangular matrix stored as a list of rows. -/
def transposeL (M : List (List ℚ)) : List (List ℚ) :=
  (List.range (M.headD []).length).map (fun j => M.map (fun r => r.getD j 0))

/-- Matrix-vector product (`np.dot`). -/
def matVecL (M : List (List ℚ)) (v : List ℚ) : List ℚ := M.map (fun r => dotQ r v)

/-- Matrix-matrix product (`np.dot`). -/
def matMulL (A B : List (List ℚ)) : List (List ℚ) :=
  A.map (fun r => (transposeL B).map (fun c => dotQ r c))

/-- Elementwise vector difference. -/
def vecSub (a b : List ℚ) : List ℚ := List.zipWith (fun x y => x - y) a b

/-- Elementwise vector sum. -/
def vecAdd (a b : List ℚ) : List ℚ := List.zipWith (fun x y => x + y) a b

/-- Scalar multiple of a vector. -/
def scaleVec (c : ℚ) (v : List ℚ) : List ℚ := v.map (fun x => c * x)

/-- Elementwise matrix sum. -/
def matAddL (A B : List (List ℚ)) : List (List ℚ) := List.zipWith vecAdd A B

/-- Scalar multiple of a matrix. -/
def scaleMat (c : ℚ) (M : List (List ℚ)) : List (List ℚ) := M.map (scaleVec c)

/-- Determinant by Laplace expansion along the first row, with the row count
as structural fuel. -/
def detFuel : ℕ → List (List ℚ) → ℚ
  | 0, _ => 1
  | n + 1, M =>
    match M with
    | [] => 1
    | row :: rest =>
      ((List.range row.length).map
        (fun j => (-1) ^ j * row.getD j 0 * detFuel n (rest.map (fun r => r.eraseIdx j)))).sum

/-- Determinant of a square rational matrix. -/
def detL (M : List (List ℚ)) : ℚ := detFuel M.length M

/-- `numpy.linalg.inv`: the inverse of a square matrix via cofactors, raising
`LinAlgError` (`none`) on a singular or non-square input. -/
def matInvL (M : List (List ℚ)) : Option (List (List ℚ)) :=
  let n := M.length
  if M.all (fun r => r.length == n) then
    let d := detL M
    if d = 0 then none
    else
      some ((List.range n).map (fun i => (List.range n).map (fun j =>
        (-1) ^ (i + j) * detL ((M.eraseIdx j).map (fun r => r.eraseIdx i)) / d)))
  else none

/-- The per-iteration learning rate of the Newton loop in
`maximizeLikelihood`: `1.0`, overridden to `0.1` while the loop index `i`
satisfies `i <= 10`. -/
def learning_rate (i : ℕ) : ℚ := if i ≤ 10 then 1 / 10 else 1

/-- Per-trace matrices precomputed before the Newton loop: the design matrix
`X`, its rows at observed spike samples `X_spikes`, and their sum
`sum_X_spikes`. -/
structure TraceMatrices where
  X : List (List ℚ)
  X_spikes : List (List ℚ)
  sum_X_spikes : List ℚ
deriving DecidableEq

/-- `GIF.computeLikelihoodGradientHessian`: log-likelihood, gradient and
Hessian of the log-linear intensity model at `beta`, for one trace.  `dts` is
the time step in seconds (`self.dt/1000`), and `Eexp` stands for `np.exp`.
The Hessian mirrors `-lambda0*dt*np.dot(np.transpose(X)*expXbeta, X)`:
the rows of `X` transposed are scaled elementwise by `exp(X beta)` before
the product. -/
def computeLikelihoodGradientHessian (Eexp : ℚ → ℚ) (lambda0 dts : ℚ)
    (tr : TraceMatrices) (beta : List ℚ) : ℚ × List ℚ × List (List ℚ) :=
  let X_spikesbeta := tr.X_spikes.map (fun r => dotQ r beta)
  let Xbeta := tr.X.map (fun r => dotQ r beta)
  let expXbeta := Xbeta.map Eexp
  let L := X_spikesbeta.sum - lambda0 * dts * expXbeta.sum
  let G := vecSub tr.sum_X_spikes
    (scaleVec (lambda0 * dts) (matVecL (transposeL tr.X) expXbeta))
  let H := scaleMat (-(lambda0 * dts))
    (matMulL ((transposeL tr.X).map (fun r => List.zipWith (fun x y => x * y) r expXbeta)) tr.X)
  (L, G, H)

/-- Sum of log-likelihood, gradient and Hessian over all traces, as
accumulated by the inner `for trace_i in np.arange(traces_nb)` loop starting
from `L=0; G=0; H=0`. -/
def sumLGH (Eexp : ℚ → ℚ) (lambda0 dts : ℚ) (traces : List TraceMatrices)
    (beta : List ℚ) : ℚ × List ℚ × List (List ℚ) :=
  traces.foldl
    (fun acc tr =>
      let LGH := computeLikelihoodGradientHessian Eexp lambda0 dts tr beta
      (acc.1 + LGH.1, vecAdd acc.2.1 LGH.2.1, matAddL acc.2.2 LGH.2.2))
    (0, List.replicate beta.length 0,
      List.replicate beta.length (List.replicate beta.length 0))

/-- The Newton loop of `maximizeLikelihood`.  `fuel` is the number of
remaining iterations of `for i in range(maxIter)` and `i` the current loop
index; `oldL` is `old_L`.  Each iteration computes `(L, G, H)`, inverts the
Hessian (`inv(H)` raises `LinAlgError` on a singular matrix: `none`), takes
the damped Newton step, and then breaks if `i > 0` and the relative
log-likelihood change is below `stopCond`.  The returned pair carries the
updated coefficients together with the number of iterations performed, the
quantity the source reports on exit. -/
def newtonIter (lgh : List ℚ → ℚ × List ℚ × List (List ℚ)) (stopCond : ℚ) :
    ℕ → ℕ → ℚ → List ℚ → Option (List ℚ × ℕ)
  | 0, i, _, beta => some (beta, i)
  | fuel + 1, i, oldL, beta =>
    let LGH := lgh beta
    match matInvL LGH.2.2 with
    | none => none
    | some Hinv =>
      let beta1 := vecSub beta (scaleVec (learning_rate i) (matVecL Hinv LGH.2.1))
      if 0 < i ∧ |(LGH.1 - oldL) / oldL| < stopCond then some (beta1, i + 1)
      else newtonIter lgh stopCond fuel (i + 1) LGH.1 beta1

/-- `GIF.maximizeLikelihood`, from the precomputed per-trace matrices on:
Newton-Raphson maximization of the log-linear point-process likelihood with
`maxIter = 10^3`, `stopCond = 10^-6` and `old_L` initialized to `1`.  The
`math.isnan(L_norm)` break of the source cannot fire under exact rational
arithmetic and has no counterpart here. -/
def maximizeLikelihood (Eexp : ℚ → ℚ) (lambda0 dts : ℚ) (traces : List TraceMatrices)
    (beta0 : List ℚ) : Option (List ℚ × ℕ) :=
  newtonIter (sumLGH Eexp lambda0 dts traces) (1 / 1000000) 1000 0 1 beta0

/-! Helper lemmas about list indexing. -/

theorem getD_set_ne (l : List ℚ) (i j : ℕ) (a : ℚ) (h : i ≠ j) :
    (l.set i a).getD j 0 = l.getD j 0 := by
  rw [List.getD_eq_getD_get?, List.getD_eq_getD_get?, List.get?_set_ne a l h]

theorem getD_set_self (l : List ℚ) (i : ℕ) (a : ℚ) (h : i < l.length) :
    (l.set i a).getD i 0 = a := by
  rw [List.getD_eq_getD_get?, List.get?_set_eq_of_lt a h]
  rfl

theorem addAt_length (a : List ℚ) (s : ℕ) (k : List ℚ) :
    (addAt a s k).length = a.length := by
  induction a, s, k using addAt.induct <;> simp [addAt, *]

theorem addKernel_some (a : List ℚ) (s : ℕ) (k : List ℚ) (h : s + k.length ≤ a.length) :
    ∃ a1, addKernel a s k = some a1 ∧ a1.length = a.length := by
  unfold addKernel
  by_cases hk : k.length = 0
  · exact ⟨a, by simp [hk], rfl⟩
  · exact ⟨addAt a s k, by simp [hk, h], addAt_length a s k⟩

theorem npDiff_length (V : List ℚ) : (npDiff V).length = V.length - 1 := by
  induction V using npDiff.induct <;> simp [npDiff, *]

theorem npDiff_getD (V : List ℚ) (i : ℕ) (h : i + 1 < V.length) :
    (npDiff V).getD i 0 = V.getD (i + 1) 0 - V.getD i 0 := by
  induction V using npDiff.induct generalizing i with
  | case1 => simp at h
  | case2 x => simp at h
  | case3 x y l ih =>
    match i with
    | 0 => simp [npDiff]
    | i + 1 =>
      have h2 : i + 1 < (y :: l).length := by simpa using Nat.lt_of_succ_lt_succ h
      simpa [npDiff] using ih i h2

theorem getD_map_lt (sel : List ℕ) (f : ℕ → ℚ) (p : ℕ) (h : p < sel.length) :
    (sel.map f).getD p 0 = f (sel.getD p 0) := by
  rw [List.getD_eq_getElem _ _ (by simpa using h), List.getElem_map,
    List.getD_eq_getElem _ _ h]

/-! Claim C3: the learning-rate schedule of the Newton update. -/

/-- Claim C3, counterexample: the claim states that the Newton update uses
`learning_rate = 1.0` for every iteration after the first 10; but the source
tests `i <= 10`, so at loop index `i = 10` (the eleventh iteration) the
learning rate is still `0.1`. -/
theorem claim_C3_counterexample :
    ¬ (∀ i : ℕ, 10 ≤ i → learning_rate i = 1) := by
  intro h
  have h10 := h 10 (le_refl 10)
  rw [learning_rate] at h10
  norm_num at h10

/-- Claim C3 (amended): the Newton update
`beta <- beta - learning_rate * inv(H) . G` in `newtonIter` uses
`learning_rate = 0.1` for the first eleven iterations (loop indices
`i = 0..10`) and `1.0` for every iteration after those. -/
theorem claim_C3 (i : ℕ) :
    (i ≤ 10 → learning_rate i = 1 / 10) ∧ (10 < i → learning_rate i = 1) := by
  constructor
  · intro h
    rw [learning_rate, if_pos h]
  · intro h
    rw [learning_rate, if_neg (by omega)]

/-- Claim C3, witness: the schedule evaluated at loop indices 10 and 11. -/
theorem claim_C3_witness : learning_rate 10 = 1 / 10 ∧ learning_rate 11 = 1 :=
  ⟨(claim_C3 10).1 (by norm_num), (claim_C3 11).2 (by norm_num)⟩

/-! Claim C9: parameter recovery after the sub-threshold regression. -/

/-- Claim C9: after the sub-threshold regression solves for `b`, the model
parameters are recovered exactly as `C = 1/b[1]`, `gl = -b[0]*C`,
`El = b[2]*C/gl`, and eta coefficients `-b[3:]*C`. -/
theorem claim_C9 (b : List ℚ) :
    (extractSubthresholdParams b).1 = 1 / b.getD 1 0 ∧
    (extractSubthresholdParams b).2.1 = -(b.getD 0 0) * (extractSubthresholdParams b).1 ∧
    (extractSubthresholdParams b).2.2.1 =
      b.getD 2 0 * (extractSubthresholdParams b).1 / (extractSubthresholdParams b).2.1 ∧
    (extractSubthresholdParams b).2.2.2 =
      (b.drop 3).map (fun x => -x * (extractSubthresholdParams b).1) :=
  ⟨rfl, rfl, rfl, rfl⟩

/-! Claim C5: the regression target vector. -/

/-- Claim C5, counterexample: the final sample of the trace is not dropped
from the regression; the source appends a `0` placeholder to the derivative
vector, so a selection containing the final sample index contributes a row
with target value `0` instead of being dropped.  Here `V = [0, 1]`, `dt = 1`
and the selection is `[1]` (the final sample): the target is `[0]`, not the
empty vector the claim would require. -/
theorem claim_C5_counterexample :
    buildYvector [0, 1] 1 [1] = [0] ∧ buildYvector [0, 1] 1 [1] ≠ [] := by
  constructor
  · decide
  · decide

/-- Claim C5 (amended): for every selected index `t` with `t + 1 < len(V)`
the regression target equals the discrete voltage derivative
`(V[t+1] - V[t])/dt`; the final sample of the trace, whose derivative is
unused, is not dropped but carries the appended placeholder target `0`, so it
is excluded from the regression only if the selection excludes it. -/
theorem claim_C5 (V : List ℚ) (dt : ℚ) (selection : List ℕ) (p : ℕ)
    (hp : p < selection.length) :
    (selection.getD p 0 + 1 < V.length →
      (buildYvector V dt selection).getD p 0 =
        (V.getD (selection.getD p 0 + 1) 0 - V.getD (selection.getD p 0) 0) / dt) ∧
    (selection.getD p 0 + 1 = V.length →
      (buildYvector V dt selection).getD p 0 = 0) := by
  have hY : (buildYvector V dt selection).getD p 0 =
      (buildYfull V dt).getD (selection.getD p 0) 0 :=
    getD_map_lt selection _ p hp
  set t := selection.getD p 0 with ht
  constructor
  · intro h
    have hlt : t < ((npDiff V).map (fun x => x / dt)).length := by
      simp [npDiff_length]
      omega
    rw [hY, buildYfull, List.getD_append _ _ _ _ hlt, List.getD_eq_getElem _ _ hlt,
      List.getElem_map, ← List.getD_eq_getElem _ 0, npDiff_getD V t h]
  · intro h
    have hlen : ((npDiff V).map (fun x => x / dt)).length = t := by
      simp [npDiff_length]
      omega
    rw [hY, buildYfull, List.getD_append_right _ _ _ _ (le_of_eq hlen), hlen]
    simp

/-- Claim C5, witness: `V = [0, 1, 3]`, `dt = 1`, selection `[0, 1]`; the
target at selected index 1 is `(3 - 1)/1 = 2`. -/
theorem claim_C5_witness :
    (buildYvector [0, 1, 3] 1 [0, 1]).getD 1 0 =
      (([0, 1, 3] : List ℚ).getD 2 0 - ([0, 1, 3] : List ℚ).getD 1 0) / 1 :=
  (claim_C5 [0, 1, 3] 1 [0, 1] 1 (by norm_num)).1 (by norm_num)

/-! Claim C2: the stochastic simulator on inputs of length 0 and 1. -/

/-- Claim C2, counterexample: on an input current of length 0 the stochastic
simulator does not return empty outputs without an indexing error; the
initial-condition assignment `V[0] = V0` is performed on the empty voltage
array and raises IndexError (`none`). -/
theorem claim_C2_counterexample :
    simulate (fun _ => 1) (fun _ => 0) ⟨1, 0, 1, 0, 0, 0, 0, 1, 1⟩ [] [] ([] : List ℚ) 0 =
      none := rfl

/-- Claim C2 (amended): for every input current of length 1 the stochastic
simulator returns an empty spike-time list and a voltage array of length 1,
with no out-of-bounds access; for length 0 the assignment `V[0] = V0` raises
IndexError before the loop is reached (see the counterexample). -/
theorem claim_C2 (Eexp : ℚ → ℚ) (rand : ℕ → ℚ) (p : SimParams) (p_eta p_gamma : List ℚ)
    (I : List ℚ) (V0 : ℚ) (h : I.length = 1) :
    ∃ out, simulate Eexp rand p p_eta p_gamma I V0 = some out ∧
      out.spks = [] ∧ out.V.length = 1 := by
  obtain ⟨a, rfl⟩ := List.length_eq_one.mp h
  exact ⟨_, rfl, rfl, rfl⟩

/-- Claim C2, witness: a concrete length-1 run. -/
theorem claim_C2_witness :
    ∃ out, simulate (fun _ => 1) (fun _ => 0) ⟨1, 0, 1, 0, 0, 0, 0, 1, 1⟩ [] [] [5] 3 =
        some out ∧ out.spks = [] ∧ out.V.length = 1 :=
  claim_C2 (fun _ => 1) (fun _ => 0) ⟨1, 0, 1, 0, 0, 0, 0, 1, 1⟩ [] [] [5] 3 rfl

/-! Claim C10: out-of-bounds reads of the spike-index array in forced-spike
mode. -/

/-- Claim C10: in the total embedding of the forced-spike simulator, the read
`spks_i[0]` before the loop is out of bounds for every empty spike list (for
every parameter set, input and initial voltage the run aborts), and after the
last supplied spike is processed inside the simulated window the loop reads
`spks_i` at index equal to the list length: the concrete non-empty sorted
spike list `[2]` (with `Tref = 0`, `dt = 1`, ten samples of input) also
aborts with an out-of-bounds read. -/
theorem claim_C10 :
    (∀ (p : SimParams) (p_eta I : List ℚ) (V0 : ℚ),
        simulateDeterministic_forceSpikes p p_eta I V0 [] = none) ∧
    simulateDeterministic_forceSpikes ⟨1, 0, 1, 0, -50, 0, 0, 1, 1⟩ []
      (List.replicate 10 1) 0 [2] = none := by
  constructor
  · intro p p_eta I V0
    show simulateDetCore (fun k => ([] : List ℤ).get? k) p p_eta I V0 [] = none
    unfold simulateDetCore etaSumForced etaSumLoop
    by_cases hI : I.length = 0 <;> simp [hI]
  · decide

/-! Claim C6: bounds of the kernel superposition writes in `simulate`. -/

/-- When the refractory sample count is at most one more than each kernel
length, every iteration of the stochastic loop keeps all kernel writes inside
the padded accumulators and the loop returns normally. -/
theorem simLoop_inbounds (Eexp : ℚ → ℚ) (rand : ℕ → ℚ) (p : SimParams)
    (p_eta p_gamma I : List ℚ) (T : ℕ)
    (he : p.TrefInd ≤ p_eta.length + 1) (hg : p.TrefInd ≤ p_gamma.length + 1) :
    ∀ fuel t k V spks es gs,
      T ≤ t + fuel + 1 →
      es.length = T + 2 * p_eta.length →
      gs.length = T + 2 * p_gamma.length →
      ∃ r, simLoop Eexp rand p p_eta p_gamma I T fuel t k V spks es gs = some r := by
  intro fuel
  induction fuel with
  | zero =>
    intro t k V spks es gs hfuel _ _
    refine ⟨(V, spks, es, gs), ?_⟩
    simp only [simLoop]
    rw [if_pos (by omega)]
  | succ f ih =>
    intro t k V spks es gs hfuel hes hgs
    by_cases hT : T ≤ t + 1
    · exact ⟨_, by simp only [simLoop]; rw [if_pos hT]⟩
    · simp only [simLoop]
      rw [if_neg hT]
      split
      · -- spike branch: both kernel writes stay inside the padding
        obtain ⟨es1, hes1, hlen1⟩ :=
          addKernel_some es (t + p.TrefInd + 1) p_eta (by omega)
        obtain ⟨gs1, hgs1, hlen2⟩ :=
          addKernel_some gs (t + p.TrefInd + 1) p_gamma (by omega)
        rw [hes1, hgs1]
        exact ih (t + p.TrefInd + 1) (k + 1) _ _ es1 gs1 (by omega)
          (by rw [hlen1, hes]) (by rw [hlen2, hgs])
      · exact ih (t + 1) (k + 1) _ spks es gs (by omega) hes hgs

/-- Claim C6, counterexample: the kernel superposition is not in bounds for
every refractory period; with `Tref = 10`, `dt = 1`, a one-sample eta kernel
and three input samples, a spike at the first step writes `eta_sum[11]` into
an accumulator of length `3 + 2*1 = 5`, out of bounds. -/
theorem claim_C6_counterexample :
    simulate (fun _ => 0) (fun _ => 1) ⟨1, 0, 1, 0, 0, 10, 0, 1, 1⟩ [1] []
      (List.replicate 3 0) 0 = none := by decide

/-- Claim C6 (amended): every superposition write of the eta and gamma
kernels into `eta_sum` and `gamma_sum` stays within the allocated bounds, and
the call returns, provided the refractory sample count `int(Tref/dt)` is at
most one more than the corresponding kernel length; the `2*kernel_length`
trailing padding does not protect against larger refractory jumps (see the
counterexample). -/
theorem claim_C6 (Eexp : ℚ → ℚ) (rand : ℕ → ℚ) (p : SimParams)
    (p_eta p_gamma I : List ℚ) (V0 : ℚ) (hT : 1 ≤ I.length)
    (he : p.TrefInd ≤ p_eta.length + 1) (hg : p.TrefInd ≤ p_gamma.length + 1) :
    (simulate Eexp rand p p_eta p_gamma I V0).isSome = true := by
  simp only [simulate]
  rw [if_neg (by omega)]
  obtain ⟨r, hr⟩ := simLoop_inbounds Eexp rand p p_eta p_gamma I I.length he hg
    I.length 0 0 ((List.replicate I.length (0 : ℚ)).set 0 V0)
    (List.replicate I.length (0 : ℚ))
    (List.replicate (I.length + 2 * p_eta.length) (0 : ℚ))
    (List.replicate (I.length + 2 * p_gamma.length) (0 : ℚ))
    (by omega) (by simp) (by simp)
  rcases r with ⟨Vf, spksf, esf, gsf⟩
  simp only [hr]
  rfl

/-- Claim C6, witness: a concrete in-bounds run with `Tref = 2`, a two-sample
eta kernel and a one-sample gamma kernel. -/
theorem claim_C6_witness :
    (simulate (fun _ => 0) (fun _ => 1) ⟨1, 0, 1, 0, 0, 2, 0, 1, 1⟩ [1, 1] [1]
      (List.replicate 4 0) 0).isSome = true :=
  claim_C6 (fun _ => 0) (fun _ => 1) ⟨1, 0, 1, 0, 0, 2, 0, 1, 1⟩ [1, 1] [1]
    (List.replicate 4 0) 0 (by norm_num) (by decide) (by decide)

/-! Claim C7: no spikes when `lambda0 = 0`. -/

/-- With `lambda0 = 0` the survival probability of every step is
`exp(0) = 1`, so no draw `r <= 1` can trigger a spike, and the loop returns
with the spike, eta and gamma arrays untouched. -/
theorem simLoop_nospike (Eexp : ℚ → ℚ) (rand : ℕ → ℚ) (p : SimParams)
    (p_eta p_gamma I : List ℚ) (T : ℕ)
    (hl : p.lambda0 = 0) (hE : Eexp 0 = 1) (hr : ∀ k, rand k ≤ 1) :
    ∀ fuel t k V spks es gs, T ≤ t + fuel + 1 →
      ∃ Vf, simLoop Eexp rand p p_eta p_gamma I T fuel t k V spks es gs =
        some (Vf, spks, es, gs) := by
  intro fuel
  induction fuel with
  | zero =>
    intro t k V spks es gs hfuel
    refine ⟨V, ?_⟩
    simp only [simLoop]
    rw [if_pos (by omega)]
  | succ f ih =>
    intro t k V spks es gs hfuel
    by_cases hT : T ≤ t + 1
    · exact ⟨V, by simp only [simLoop]; rw [if_pos hT]⟩
    · simp only [simLoop]
      rw [if_neg hT, hl]
      simp only [zero_mul, neg_zero, hE]
      rw [if_neg (not_lt.mpr (hr k))]
      exact ih (t + 1) (k + 1) _ spks es gs (by omega)

/-- Claim C7: with `lambda0 = 0` the stochastic simulator emits no spikes:
whenever a run returns, its spike-time list is empty (the survival
probability `exp(-lambda*dt/1000)` evaluates to `exp 0 = 1` and the spike
condition `r > p_dontspike` never holds for draws `r <= 1`), and every run on
a non-empty input does return. -/
theorem claim_C7 (Eexp : ℚ → ℚ) (rand : ℕ → ℚ) (p : SimParams)
    (p_eta p_gamma I : List ℚ) (V0 : ℚ)
    (hl : p.lambda0 = 0) (hE : Eexp 0 = 1) (hr : ∀ k, rand k ≤ 1) :
    (∀ out, simulate Eexp rand p p_eta p_gamma I V0 = some out → out.spks = []) ∧
    (1 ≤ I.length → (simulate Eexp rand p p_eta p_gamma I V0).isSome = true) := by
  by_cases hT : I.length = 0
  · constructor
    · intro out hout
      simp only [simulate] at hout
      rw [if_pos hT] at hout
      exact absurd hout (by simp)
    · intro h1
      omega
  · obtain ⟨Vf, hloop⟩ := simLoop_nospike Eexp rand p p_eta p_gamma I I.length hl hE hr
      I.length 0 0 ((List.replicate I.length (0 : ℚ)).set 0 V0)
      (List.replicate I.length (0 : ℚ))
      (List.replicate (I.length + 2 * p_eta.length) (0 : ℚ))
      (List.replicate (I.length + 2 * p_gamma.length) (0 : ℚ)) (by omega)
    have hsim : simulate Eexp rand p p_eta p_gamma I V0 =
        some { time := (List.range I.length).map (fun i => (i : ℚ) * p.dt)
               V := Vf
               eta_sum := (List.replicate (I.length + 2 * p_eta.length) (0 : ℚ)).take I.length
               V_T := ((List.replicate (I.length + 2 * p_gamma.length) (0 : ℚ)).take
                 I.length).map (fun x => x + p.Vt_star)
               spks := ((List.range I.length).filter
                 (fun i => (List.replicate I.length (0 : ℚ)).getD i 0 == 1)).map
                   (fun i => (i : ℚ) * p.dt) } := by
      simp only [simulate]
      rw [if_neg hT, hloop]
    have hfilter : ((List.range I.length).filter
        (fun i => (List.replicate I.length (0 : ℚ)).getD i 0 == 1)) = [] := by
      apply List.filter_eq_nil.mpr
      intro i _
      simp [List.getD_replicate_default_eq]
    constructor
    · intro out hout
      rw [hsim] at hout
      cases hout
      simp [hfilter]
    · intro _
      rw [hsim]
      rfl

/-- Claim C7, witness: a concrete two-sample run with `lambda0 = 0`. -/
theorem claim_C7_witness :
    (∀ out, simulate (fun _ => 1) (fun _ => 0) ⟨1, 0, 1, 0, 0, 0, 0, 1, 0⟩ [] [] [0, 0] 0 =
      some out → out.spks = []) ∧
    (1 ≤ ([0, 0] : List ℚ).length →
      (simulate (fun _ => 1) (fun _ => 0) ⟨1, 0, 1, 0, 0, 0, 0, 1, 0⟩ [] [] [0, 0] 0).isSome =
        true) :=
  claim_C7 (fun _ => 1) (fun _ => 0) ⟨1, 0, 1, 0, 0, 0, 0, 1, 0⟩ [] [] [0, 0] 0 rfl rfl
    (fun _ => by norm_num)

/-! Claim C8: the voltage-reset fit. -/

/-- Claim C8: over the usable training traces with at least one spike (all
sharing the support `S` of length-`L` spike-triggered average waveforms),
`fitVoltageReset` computes the unweighted mean of the per-trace waveforms
(equal weight per trace, with the per-trace spike counts left out of the
average), sets `Vr` to the value of that mean at the first support sample
`>= Tref`, and stores the averaged waveform and its support. -/
theorem claim_C8 (traces : List TraceData) (Tref : ℚ) (S : List ℚ) (k L : ℕ)
    (hne : qualifyingTraces traces ≠ [])
    (hsup : ∀ tr ∈ qualifyingTraces traces, tr.support = S)
    (hlen : ∀ tr ∈ qualifyingTraces traces, tr.spikeAvg.length = L)
    (hfind : S.findIdx? (fun x => decide (Tref ≤ x)) = some k)
    (hk : k < L) :
    fitVoltageReset traces Tref = some
      (((qualifyingTraces traces).map (fun tr => tr.spikeAvg.getD k 0)).sum /
         ((qualifyingTraces traces).length : ℚ),
       (List.range L).map (fun j =>
         ((qualifyingTraces traces).map (fun tr => tr.spikeAvg.getD j 0)).sum /
           ((qualifyingTraces traces).length : ℚ)),
       S) := by
  obtain ⟨q0, qrest, hq⟩ := List.exists_cons_of_ne_nil hne
  have hq0 : q0 ∈ qualifyingTraces traces := by
    rw [hq]
    exact List.mem_cons_self q0 qrest
  have hmean : vecMeanQ ((qualifyingTraces traces).map (fun tr => tr.spikeAvg)) =
      some ((List.range L).map (fun j =>
        ((qualifyingTraces traces).map (fun tr => tr.spikeAvg.getD j 0)).sum /
          ((qualifyingTraces traces).length : ℚ))) := by
    rw [hq, List.map_cons, vecMeanQ]
    rw [if_pos ?all]
    case all =>
      apply List.all_eq_true.mpr
      intro l hl
      obtain ⟨tr, htr, rfl⟩ := List.mem_map.mp hl
      have htr2 : tr ∈ qualifyingTraces traces := by
        rw [hq]
        exact List.mem_cons_of_mem q0 htr
      simp [hlen tr htr2, hlen q0 hq0]
    rw [hlen q0 hq0]
    rw [← List.map_cons (fun tr => tr.spikeAvg) q0 qrest, ← hq]
    congr 1
    apply List.map_congr_left
    intro j _
    rw [List.map_map, List.length_map]
    rfl
  obtain ⟨lastTr, hlast⟩ := Option.isSome_iff_exists.mp
    (List.getLast?_isSome.mpr hne)
  have hlastmem : lastTr ∈ qualifyingTraces traces :=
    List.mem_of_mem_getLast? (by rw [hlast]; exact rfl)
  have hget : ((List.range L).map (fun j =>
      ((qualifyingTraces traces).map (fun tr => tr.spikeAvg.getD j 0)).sum /
        ((qualifyingTraces traces).length : ℚ))).get? k =
      some (((qualifyingTraces traces).map (fun tr => tr.spikeAvg.getD k 0)).sum /
        ((qualifyingTraces traces).length : ℚ)) := by
    rw [List.get?_map, List.get?_range hk]
    rfl
  rw [fitVoltageReset, hmean, hlast]
  dsimp only
  rw [hsup lastTr hlastmem, hfind]
  dsimp only
  rw [hget]

/-- Claim C8, witness: two qualifying traces with different spike counts (1
and 3) and one excluded trace; the averaged waveform weights both qualifying
traces equally, giving `Vr = (20 + 40)/2 = 30` at the first support sample
`>= Tref = 4`, not the spike-count-weighted value 35. -/
theorem claim_C8_witness :
    fitVoltageReset
      [⟨true, [1], [0, 4], [10, 20], 1⟩, ⟨false, [1], [0, 4], [1000, 1000], 5⟩,
        ⟨true, [1, 2, 3], [0, 4], [30, 40], 3⟩] 4 =
      some (30, [20, 30], [0, 4]) := by
  have h := claim_C8
    [⟨true, [1], [0, 4], [10, 20], 1⟩, ⟨false, [1], [0, 4], [1000, 1000], 5⟩,
      ⟨true, [1, 2, 3], [0, 4], [30, 40], 3⟩] 4 [0, 4] 1 2
    (by decide) (by decide) (by decide) (by decide) (by decide)
  rw [h]
  decide

/-! Claim C4: termination behavior of the Newton loop. -/

/-- The iteration count reported on exit of the Newton loop is bounded by the
current loop index plus the remaining iterations. -/
theorem newtonIter_iters_le (lgh : List ℚ → ℚ × List ℚ × List (List ℚ)) (stopCond : ℚ) :
    ∀ fuel i oldL beta r, newtonIter lgh stopCond fuel i oldL beta = some r →
      r.2 ≤ i + fuel := by
  intro fuel
  induction fuel with
  | zero =>
    intro i oldL beta r h
    simp only [newtonIter] at h
    cases h
    simp
  | succ f ih =>
    intro i oldL beta r h
    simp only [newtonIter] at h
    cases hinv : matInvL (lgh beta).2.2 with
    | none => rw [hinv] at h; cases h
    | some Hinv =>
      rw [hinv] at h
      dsimp only at h
      by_cases hc : 0 < i ∧ |((lgh beta).1 - oldL) / oldL| < stopCond
      · rw [if_pos hc] at h
        cases h
        omega
      · rw [if_neg hc] at h
        have := ih (i + 1) (lgh beta).1 _ r h
        omega

/-- Claim C4, counterexample: the Newton loop does fail fatally on a singular
Hessian.  With a single trace whose design matrix is the single row
`[1, 1]`, the Hessian `-lambda0*dt*X^T*diag(exp(X beta))*X` is singular at
the very first iteration, `inv(H)` raises `LinAlgError`, and no parameter
vector is returned. -/
theorem claim_C4_counterexample :
    maximizeLikelihood (fun _ => 1) 1 (1 / 10000) [⟨[[1, 1]], [], [0, 0]⟩] [0, 0] =
      none := by decide

/-- Claim C4 (amended): the Newton loop performs at most 1000 iterations and
returns the current estimate on convergence or on reaching the iteration
cap; but it is not protected against numerical failure of the Newton step: a
singular Hessian at any iteration raises `LinAlgError` out of
`inv(H)` (see the counterexample) instead of being surfaced as
non-convergence. -/
theorem claim_C4 (Eexp : ℚ → ℚ) (lambda0 dts : ℚ) (traces : List TraceMatrices)
    (beta0 : List ℚ) (r : List ℚ × ℕ)
    (h : maximizeLikelihood Eexp lambda0 dts traces beta0 = some r) :
    r.2 ≤ 1000 :=
  newtonIter_iters_le (sumLGH Eexp lambda0 dts traces) (1 / 1000000) 1000 0 1 beta0 r h

/-- Claim C4, witness: a concrete converging run (one trace, one parameter,
constant log-likelihood) exits after 2 iterations. -/
theorem claim_C4_witness : (([0], 2) : List ℚ × ℕ).2 ≤ 1000 :=
  claim_C4 (fun _ => 1) 1 1 [⟨[[1]], [[1]], [1]⟩] [0] ([0], 2) (by decide)

/-! Claim C1: the forced reset index of the deterministic simulator. -/

/-- A run of the forced-spike loop during which the scheduled spike index is
never reached returns normally and leaves all samples up to the current loop
index untouched. -/
theorem detLoop_no_trigger (T : ℕ) (readSpk : ℕ → Option ℤ) (Tref_ind : ℤ)
    (dt C gl El Vr : ℚ) (I es : List ℚ) :
    ∀ fuel t next cnt V,
      T ≤ t + 1 + fuel →
      (∀ u : ℕ, t ≤ u → u + 1 < T → (u : ℤ) ≠ next) →
      ∃ Vf, detLoop T readSpk Tref_ind dt C gl El Vr I es fuel t next cnt V = some Vf ∧
        ∀ j, j ≤ t → Vf.getD j 0 = V.getD j 0 := by
  intro fuel
  induction fuel with
  | zero =>
    intro t next cnt V hfuel hnt
    refine ⟨V, ?_, fun j _ => rfl⟩
    simp only [detLoop]
    rw [if_pos (by omega)]
  | succ f ih =>
    intro t next cnt V hfuel hnt
    by_cases hT : T ≤ t + 1
    · exact ⟨V, by simp only [detLoop]; rw [if_pos hT], fun j _ => rfl⟩
    · simp only [detLoop]
      rw [if_neg hT, if_neg (hnt t le_rfl (by omega))]
      obtain ⟨Vf, heq, hpres⟩ := ih (t + 1) next cnt
        (V.set (t + 1)
          (V.getD t 0 + dt / C * (-(gl * (V.getD t 0 - El)) + I.getD t 0 - es.getD t 0)))
        (by omega) (fun u hu h2 => hnt u (by omega) h2)
      exact ⟨Vf, heq, fun j hj => by
        rw [hpres j (by omega), getD_set_ne _ _ _ _ (by omega)]⟩

/-- A run of the forced-spike loop with exactly one scheduled spike at sample
`m` (with `1 <= m` and `m + 2 <= T`) reaches `m`, forces `V[m] = Vr`, and,
provided the value read past the end of the spike-index array schedules no
further reset inside the window, returns with `V[m] = Vr` still in place. -/
theorem detLoop_single_spike (T : ℕ) (readSpk : ℕ → Option ℤ) (Tref_ind : ℤ)
    (dt C gl El Vr : ℚ) (I es : List ℚ) (m : ℕ) (s1 : ℤ)
    (hm1 : 1 ≤ m) (hm2 : m + 2 ≤ T)
    (hread : readSpk 1 = some s1) (hjunk : (T : ℤ) - 1 ≤ s1 + Tref_ind) :
    ∀ fuel t V, t ≤ m → T ≤ t + fuel → V.length = T →
      ∃ Vf, detLoop T readSpk Tref_ind dt C gl El Vr I es fuel t (m : ℤ) 0 V = some Vf ∧
        Vf.getD m 0 = Vr := by
  intro fuel
  induction fuel with
  | zero =>
    intro t V ht hfuel hlen
    omega
  | succ f ih =>
    intro t V ht hfuel hlen
    have hT : ¬ (T ≤ t + 1) := by omega
    simp only [detLoop]
    rw [if_neg hT]
    by_cases htm : t = m
    · obtain ⟨t0, rfl⟩ : ∃ t0, t = t0 + 1 := ⟨t - 1, by omega⟩
      rw [if_pos (by exact_mod_cast htm), hread]
      dsimp only
      have hnotrig : ∀ u : ℕ, t0 + 1 ≤ u → u + 1 < T → (u : ℤ) ≠ s1 + Tref_ind := by
        intro u _ hu2 hc
        have : (u : ℤ) < (T : ℤ) - 1 := by exact_mod_cast by omega
        omega
      obtain ⟨Vf, heq, hpres⟩ := detLoop_no_trigger T readSpk Tref_ind dt C gl El Vr I es
        f (t0 + 1) (s1 + Tref_ind) 1
        ((((V.set (t0 + 1 + 1)
            (V.getD (t0 + 1) 0 + dt / C * (-(gl * (V.getD (t0 + 1) 0 - El)) +
              I.getD (t0 + 1) 0 - es.getD (t0 + 1) 0))).set t0 0).set (t0 + 1) Vr))
        (by omega) hnotrig
      refine ⟨Vf, heq, ?_⟩
      rw [← htm]
      rw [hpres (t0 + 1) le_rfl, getD_set_self]
      simp only [List.length_set, hlen]
      omega
    · rw [if_neg (fun hc => htm (by exact_mod_cast hc))]
      obtain ⟨Vf, heq, hVf⟩ := ih (t + 1)
        (V.set (t + 1)
          (V.getD t 0 + dt / C * (-(gl * (V.getD t 0 - El)) + I.getD t 0 - es.getD t 0)))
        (by omega) (by omega) (by simp [hlen])
      exact ⟨Vf, heq, hVf⟩

/-- Claim C1, counterexample: the refractory offset is truncated, not rounded
to nearest.  With `dt = 8/3`, one spike at `t = 50` ms and `Tref = 4` ms, the
claimed reset index is `round(50/dt) + round(4/dt) = 19 + 2 = 21`, but the
simulator resets at `round(50/dt) + int(4/dt) = 19 + 1 = 20`: the returned
voltage at sample 21 is `-142/3`, not `Vr = -50` (the out-of-bounds read
past the one-element spike array after the reset is given the benign value
100, which schedules no further reset inside the 23-sample window). -/
theorem claim_C1_counterexample :
    ((simulateDeterministic_forceSpikesUB (fun _ => 100) ⟨8 / 3, 0, 1, 0, -50, 4, 0, 1, 1⟩
        [] (List.replicate 23 1) 0 [50]).map
      (fun r => r.V.getD ((round ((50 : ℚ) / (8 / 3)) + round ((4 : ℚ) / (8 / 3))).toNat) 0)) =
        some (-142 / 3) ∧ (-142 / 3 : ℚ) ≠ -50 ∧
    ((simulateDeterministic_forceSpikesUB (fun _ => 100) ⟨8 / 3, 0, 1, 0, -50, 4, 0, 1, 1⟩
        [] (List.replicate 23 1) 0 [50]).map
      (fun r => r.V.getD ((round ((50 : ℚ) / (8 / 3)) + pyInt ((4 : ℚ) / (8 / 3))).toNat) 0)) =
        some (-50) := by
  refine ⟨by decide, by decide, by decide⟩

/-- Claim C1 (amended): in forced-spike mode the supplied spike times are
converted to sample indices by round-to-nearest against `dt`
(`Tools.timeToIndex`), but the refractory offset is converted by truncation,
`int(Tref/dt)`.  For a trace with exactly one supplied spike at `t = 50` ms
the returned voltage equals `Vr` at sample index
`m = round(50/dt) + int(Tref/dt)` whenever `1 <= m`, `m + 2 <= len(I)`, the
Python-side kernel superposition succeeds, and the value the C loop reads
past the end of the one-element spike-index array (undefined behavior)
schedules no further reset inside the simulated window. -/
theorem claim_C1 (junk : ℕ → ℤ) (p : SimParams) (p_eta : List ℚ) (I : List ℚ) (V0 : ℚ)
    (es : List ℚ) (m : ℕ)
    (hm : (m : ℤ) = round ((50 : ℚ) / p.dt) + pyInt (p.Tref / p.dt))
    (hm1 : 1 ≤ m) (hm2 : m + 2 ≤ I.length)
    (hes : etaSumForced I.length (pyInt (p.Tref / p.dt)).toNat p_eta
      (timeToIndex [50] p.dt) = some es)
    (hjunk : ∀ j, (I.length : ℤ) - 1 ≤ junk j + pyInt (p.Tref / p.dt)) :
    ∃ res, simulateDeterministic_forceSpikesUB junk p p_eta I V0 [50] = some res ∧
      res.V.getD m 0 = p.Vr := by
  have hT0 : ¬ (I.length = 0) := by omega
  obtain ⟨Vf, hloop, hVr⟩ := detLoop_single_spike I.length
    (fun k => some ((timeToIndex [50] p.dt).getD k (junk k))) (pyInt (p.Tref / p.dt))
    p.dt p.C p.gl p.El p.Vr I es m (junk 1) hm1 hm2 rfl (hjunk 1)
    (2 * I.length + 2) 0 ((List.replicate I.length (0 : ℚ)).set 0 V0)
    (by omega) (by omega) (by simp)
  refine ⟨{ time := (List.range I.length).map (fun i => (i : ℚ) * p.dt), V := Vf,
            eta_sum := es }, ?_, hVr⟩
  simp only [simulateDeterministic_forceSpikesUB, simulateDetCore]
  rw [hes]
  dsimp only
  rw [if_neg hT0]
  have hread0 : (timeToIndex [50] p.dt).getD 0 (junk 0) = round ((50 : ℚ) / p.dt) := rfl
  rw [hread0, ← hm, hloop]

/-- Claim C1, witness: the concrete run of the counterexample satisfies all
the hypotheses with `m = 20`. -/
theorem claim_C1_witness :
    ∃ res, simulateDeterministic_forceSpikesUB (fun _ => 100)
        ⟨8 / 3, 0, 1, 0, -50, 4, 0, 1, 1⟩ [] (List.replicate 23 1) 0 [50] = some res ∧
      res.V.getD 20 0 = (⟨8 / 3, 0, 1, 0, -50, 4, 0, 1, 1⟩ : SimParams).Vr :=
  claim_C1 (fun _ => 100) ⟨8 / 3, 0, 1, 0, -50, 4, 0, 1, 1⟩ [] (List.replicate 23 1) 0
    (List.replicate 23 0) 20 (by decide) (by decide) (by decide) (by decide)
    (fun j => by
      have h : ((List.replicate 23 (1 : ℚ)).length : ℤ) - 1 ≤
          100 + pyInt ((4 : ℚ) / (8 / 3)) := by decide
      exact h)

end GIFModel
